import Mathlib

/-!
Verification development for the angular-build configuration pipeline.

Each definition below is a shallow embedding of a function of the
repository, translated from the TypeScript source:

* `webpackOutputOptions`, `getWebpackStatsConfig`, `checkManifestFile`,
  `tryDll` — from the try-bundle-dll webpack plugin source file;
* `prepareGlob`, `parseOneAsset`, `parseAssetEntry` — from
  `src/helpers/parse-asset-entry.ts`;
* `filterLibConfigs`, `filterAppConfigs`, `getWebpackConfigModel` — from
  the `getWebpackConfig` function of the webpack-configs source;
* `getAppDllWebpackConfig`, `buildDllEntries` — from
  `src/webpack-configs/app/dll.ts`;
* `getStylesConfigPartial` — from `src/webpack-configs/styles.ts`.

Non-pure collaborators (the filesystem, the external bundler, the
`webpack-merge` package, the per-project validators and builders that live
in other modules) are passed in as explicit parameters, so that the control
flow of the embedded functions is exactly the control flow of the source.
-/

namespace AngularBuild

/-! ## Webpack stats output options (try-bundle-dll plugin source)

The plugin module holds a module-level mutable object
`webpackOutputOptions`; `getWebpackStatsConfig(verbose)` returns it, and
when `verbose` is true it first merges `verboseWebpackOutputOptions` into
it **in place** (`Object.assign(target, source)` mutates and returns the
target).  We model the module state by threading the current value of the
object explicitly: the function takes the current state and returns the
pair (new state, returned object). -/

structure WebpackStatsOptions where
  colors : Bool
  hash : Bool
  timings : Bool
  chunks : Bool
  chunkModules : Bool
  children : Bool
  modules : Bool
  reasons : Bool
  warnings : Bool
  assets : Bool
  version : Bool
deriving DecidableEq, Repr

/-- Initial value of the module-level `webpackOutputOptions` object. -/
def webpackOutputOptions : WebpackStatsOptions :=
  { colors := true, hash := true, timings := true, chunks := true
    chunkModules := false, children := false, modules := false
    reasons := false, warnings := true, assets := false, version := false }

/-- Effect of `Object.assign(webpackOutputOptions, verboseWebpackOutputOptions)`
on the shared object. -/
def assignVerboseOptions (o : WebpackStatsOptions) : WebpackStatsOptions :=
  { o with children := true, assets := true, version := true
           reasons := true, chunkModules := false }

/-- `getWebpackStatsConfig(verbose)`: state-passing model.  Returns
(state of the module object after the call, value returned to the caller).
Both are the same object in the source (the function returns the shared
object itself). -/
def getWebpackStatsConfig (verbose : Bool) (st : WebpackStatsOptions) :
    WebpackStatsOptions × WebpackStatsOptions :=
  if verbose then (assignVerboseOptions st, assignVerboseOptions st)
  else (st, st)

/-! ## TryBundleDllWebpackPlugin (vendor-bundle gatekeeper)

`tryDll(next)` chains: `checkManifestFile()` (a promise that **rejects**
with the stat error when `fs.stat` fails, and otherwise resolves
`stats.isFile()`), then — when the manifest does not check out as an
existing regular file — runs the bundler on the vendor-only config; the
run callback rejects with `err` when the bundler reports a fatal error,
calls `reject()` with **no reason** when `stats.hasErrors()`, and resolves
otherwise.  Finally `.then(() => next()).catch(err => next(err))`.

The external world (the stat outcome and the bundler-run outcome) is a
parameter; the result records whether the bundler was invoked and the
argument that reaches `next` (`none` models both `next()` and
`next(undefined)`, which webpack treats identically as success). -/

/-- Outcome of `fs.stat(manifestFile, ...)`. -/
inductive StatOutcome where
  | statError (e : String)
  | statOk (isFile : Bool)
deriving DecidableEq, Repr

/-- `checkManifestFile`: rejects with the error when stat fails, resolves
`stats.isFile()` otherwise. -/
def checkManifestFile : StatOutcome → Except String Bool
  | .statError e => .error e
  | .statOk b => .ok b

/-- Outcome of `webpackCompiler.run(callback)`: the `err` argument and the
value of `stats.hasErrors()` passed to the callback. -/
structure RunOutcome where
  runErr : Option String
  hasErrors : Bool
deriving DecidableEq, Repr

/-- The external world a `tryDll` call observes. -/
structure DllWorld where
  manifestStat : StatOutcome
  run : RunOutcome
deriving DecidableEq, Repr

/-- What a `tryDll` call did: whether it invoked the bundler, and the
argument delivered to the hook completion callback `next` (`none` = no
error delivered, i.e. `next()` or `next(undefined)`). -/
structure HookOutcome where
  invokedBundler : Bool
  nextErr : Option String
deriving DecidableEq, Repr

/-- `TryBundleDllWebpackPlugin.tryDll`, with the promise chain made
explicit.  Note two source facts this model preserves:
1. a stat failure makes `checkManifestFile` reject, so the `.catch`
   forwards the stat error to `next` and the bundler is never invoked;
2. on `stats.hasErrors()` the run promise calls `reject()` with no
   reason, so the `.catch` receives `undefined` and `next` gets no error. -/
def tryDll (w : DllWorld) : HookOutcome :=
  match checkManifestFile w.manifestStat with
  | .error e => { invokedBundler := false, nextErr := some e }
  | .ok isFile =>
    if isFile then
      { invokedBundler := false, nextErr := none }
    else
      match w.run.runErr with
      | some e => { invokedBundler := true, nextErr := some e }
      | none =>
        if w.run.hasErrors then
          -- reject() carries no reason: next receives undefined
          { invokedBundler := true, nextErr := none }
        else
          { invokedBundler := true, nextErr := none }

/-! ## parseAssetEntry (`src/helpers/parse-asset-entry.ts`)

Strings are modelled as Lean `String`; `path.isAbsolute` is modelled for
POSIX paths (leading `/`); JavaScript's `String.prototype.lastIndexOf`
for a single character is modelled by `lastIndexOf` below, returning an
`Int` (`-1` = not found).  The two read-only filesystem probes
`fs.existsSync(path.resolve(baseDir, p)) && fs.statSync(...).isDirectory()`
are abstracted into a single predicate `fsIsDir : String → Bool` on the
raw entry string (the base directory is fixed for one call). -/

/-- Index of the last occurrence of `c` in the character list, or `-1`. -/
def lastIndexOfAux : List Char → Char → Int
  | [], _ => -1
  | x :: xs, c =>
    let r := lastIndexOfAux xs c
    if r ≥ 0 then r + 1
    else if x = c then 0 else -1

/-- JavaScript `p.lastIndexOf(c)` for a one-character needle. -/
def lastIndexOf (p : String) (c : Char) : Int :=
  lastIndexOfAux p.data c

/-- POSIX `path.isAbsolute`: the path starts with a separator. -/
def isAbsolute (p : String) : Bool :=
  match p.data with
  | c :: _ => c == '/'
  | [] => false

/-- JavaScript `p.substr(0, p.length - 1)`: drop the final character. -/
def dropLastChar (p : String) : String :=
  String.mk p.data.dropLast

/-- `prepareGlobFn` from `parseAssetEntry`: when the entry has no
wildcard, is not absolute, and resolves to an existing directory, strip
the final character whenever the entry contains a `/` anywhere
(the source tests `p.lastIndexOf('/') > -1`) and append the recursive
all-files suffix; otherwise the entry is returned unchanged. -/
def prepareGlob (fsIsDir : String → Bool) (p : String) : String :=
  if p = "" then ""
  else if lastIndexOf p '*' == -1 && !isAbsolute p && fsIsDir p then
    (if lastIndexOf p '/' > -1 then dropLastChar p else p) ++ "/**/*"
  else p

/-- The `from` part of a parsed asset entry: either a literal path or a
glob descriptor `{glob, dot}`. -/
inductive FromVal where
  | lit (p : String)
  | glob (g : String) (dot : Bool)
deriving DecidableEq, Repr

/-- One canonical parsed asset entry (`AssetParsedEntry`). -/
structure ParsedEntry where
  fromE : FromVal
  context : Option String
  toDest : Option String
deriving DecidableEq, Repr

/-- One raw asset entry: a plain string, or a structured object with an
optional `from`, `context` and `to` (after the clone step that defaults
`from` to `null`). -/
inductive AssetIn where
  | str (s : String)
  | obj (fromE : Option String) (context : Option String) (toDest : Option String)
deriving DecidableEq, Repr

/-- JavaScript truthiness of an optional string (`undefined`/`null` and
`''` are falsy). -/
def strTruthy : Option String → Bool
  | none => false
  | some s => s ≠ ""

/-- Body of the `clonedEntries.map` callback in `parseAssetEntry`:
normalises one entry, or throws on an invalid one. -/
def parseOneAsset (fsIsDir : String → Bool) (baseDir : String) :
    AssetIn → Except String ParsedEntry
  | .str asset =>
    let fromGlob := prepareGlob fsIsDir asset
    if fromGlob == asset && isAbsolute fromGlob then
      .ok { fromE := .lit asset, context := some baseDir, toDest := none }
    else
      .ok { fromE := .glob fromGlob true, context := some baseDir, toDest := none }
  | .obj fromE context toDest =>
    if strTruthy fromE then
      match fromE with
      | some f =>
        let ctx := if strTruthy context then context else some baseDir
        let fromGlob := prepareGlob fsIsDir f
        if fromGlob == f && isAbsolute fromGlob then
          .ok { fromE := .lit f, context := ctx, toDest := toDest }
        else
          .ok { fromE := .glob fromGlob true, context := ctx, toDest := toDest }
      | none => .error "Invalid assets value in appConfig."
    else
      .error "Invalid assets value in appConfig."

/-- Left-to-right map over the cloned entries; the first thrown error
aborts the whole call, as in the source. -/
def parseAssetList (fsIsDir : String → Bool) (baseDir : String) :
    List AssetIn → Except String (List ParsedEntry)
  | [] => .ok []
  | a :: rest =>
    match parseOneAsset fsIsDir baseDir a with
    | .error m => .error m
    | .ok e =>
      match parseAssetList fsIsDir baseDir rest with
      | .error m => .error m
      | .ok es => .ok (e :: es)

/-- `parseAssetEntry(baseDir, assetEntries)`: empty input yields the empty
list; otherwise each entry is normalised in order. -/
def parseAssetEntry (fsIsDir : String → Bool) (baseDir : String)
    (assets : List AssetIn) : Except String (List ParsedEntry) :=
  if assets.isEmpty then .ok []
  else parseAssetList fsIsDir baseDir assets

/-! ## Project filter and result-list assembly (`getWebpackConfig`)

A project config is reduced to the fields the filter and loop consult:
its declared `name` (the empty string models an unset / falsy name) and
the `skip` flag of the cloned config after environment overrides were
applied (`applyProjectConfigWithEnvOverrides` lives outside this slice,
so its effect is folded into the field).  `validateProjectConfig`,
`getLibWebpackConfig`, `getAppWebpackConfig` and `getAppDllWebpackConfig`
are collaborators from other modules, passed in as parameters; a builder
returning `none` models the source's `wpConfig` being null. -/

structure ProjCfg where
  name : String
  skip : Bool
deriving DecidableEq, Repr

/-- Filtering of `libConfigs` (the `.filter` plus the exclusivity check
that empties the list when every requested name is `'apps'`). -/
def filterLibConfigs (libConfigs : List ProjCfg) (filterNames : List String) :
    List ProjCfg :=
  let filtered := libConfigs.filter (fun pc =>
    filterNames.length == 0 ||
      (filterNames.length > 0 &&
        (filterNames.contains "libs" ||
          (pc.name != "" && filterNames.contains pc.name))))
  if filterNames.length != 0 &&
      (filterNames.filter (fun configName => configName == "apps")).length ==
        filterNames.length then
    []
  else filtered

/-- Filtering of `appConfigs`, symmetric to `filterLibConfigs`. -/
def filterAppConfigs (appConfigs : List ProjCfg) (filterNames : List String) :
    List ProjCfg :=
  let filtered := appConfigs.filter (fun pc =>
    filterNames.length == 0 ||
      (filterNames.length > 0 &&
        (filterNames.contains "apps" ||
          (pc.name != "" && filterNames.contains pc.name))))
  if filterNames.length != 0 &&
      (filterNames.filter (fun configName => configName == "libs")).length ==
        filterNames.length then
    []
  else filtered

/-- The per-group loop of `getWebpackConfig`: skip-flagged projects are
passed over, `validateProjectConfig` may throw (aborting the whole call),
and a null builder result contributes nothing. -/
def buildFilteredList {α : Type} (validate : ProjCfg → Option String)
    (build : ProjCfg → Option α) : List ProjCfg → Except String (List α)
  | [] => .ok []
  | pc :: rest =>
    if pc.skip then buildFilteredList validate build rest
    else
      match validate pc with
      | some e => .error e
      | none =>
        match buildFilteredList validate build rest with
        | .error e => .error e
        | .ok tail =>
          .ok (match build pc with
               | some c => c :: tail
               | none => tail)

/-- The project-assembly portion of `getWebpackConfig` (everything after
schema validation and `AngularBuildContext.init`): filter the lib and app
lists, build each surviving project (apps via the dll builder when
`environment.dll` is set), and fail with `InvalidConfigError` when no
projects were declared or the assembled list is empty. -/
def getWebpackConfigModel {α : Type} (validate : ProjCfg → Option String)
    (buildLib buildApp buildAppDll : ProjCfg → Option α)
    (libConfigs appConfigs : List ProjCfg) (filterNames : List String)
    (envDll : Bool) : Except String (List α) :=
  if appConfigs.length == 0 && libConfigs.length == 0 then
    .error "No app or lib project is available."
  else
    match buildFilteredList validate buildLib
        (filterLibConfigs libConfigs filterNames) with
    | .error e => .error e
    | .ok libCfgs =>
      match buildFilteredList validate
          (if envDll then buildAppDll else buildApp)
          (filterAppConfigs appConfigs filterNames) with
      | .error e => .error e
      | .ok appCfgs =>
        if (libCfgs ++ appCfgs).length == 0 then
          .error "No app or lib project is available."
        else .ok (libCfgs ++ appCfgs)

/-! ## getAppDllWebpackConfig (`src/webpack-configs/app/dll.ts`)

The merger calls `webpackMerge` (an external package) on the four
fragments and then patches the entry: if the merged config has no `entry`
at all, or its entry is an object with zero keys, it substitutes a no-op
function returning an empty object.  The merged value produced by
`webpackMerge` is abstracted as a parameter; the entry slot is modelled by
`WebpackEntry` (`absent` = no `entry` key, `obj` = an object keyed by
entry-point name, `fn` = a function value). -/

inductive WebpackEntry where
  | absent
  | obj (m : List (String × List String))
  | fn
deriving DecidableEq, Repr

structure WebpackConfigM where
  entry : WebpackEntry
deriving DecidableEq, Repr

/-- The JavaScript test
`!mergedConfig.entry || (typeof mergedConfig.entry === 'object' && !Object.keys(mergedConfig.entry).length)`. -/
def entryIsEmptyJs : WebpackEntry → Bool
  | .absent => true
  | .obj m => m.length == 0
  | .fn => false

/-- `getAppDllWebpackConfig`: returns `{}` unless the project is the dll
variant of an app; otherwise takes the merged config (the `webpackMerge`
output, abstracted as `merged`) and substitutes the no-op entry function
when the merged entry set is empty. -/
def getAppDllWebpackConfig (isDll : Bool) (projectType : String)
    (merged : WebpackConfigM) : WebpackConfigM :=
  if !isDll || projectType != "app" then { entry := .absent }
  else if entryIsEmptyJs merged.entry then { merged with entry := .fn }
  else merged

/-! ## Vendor-chunk entry accumulation (`getAppDllWebpackConfigPartial`)

`entries` (the array stored under the vendor chunk name) and `tsEntries`
are grown with a membership check before every push. -/

structure DllParsedResult where
  tsEntries : List String
  scriptEntries : List String
  styleEntries : List String
deriving DecidableEq, Repr

/-- `if (!list.includes(x)) list.push(x)`. -/
def pushUnique (l : List String) (x : String) : List String :=
  if l.contains x then l else l ++ [x]

/-- The `dllResult.tsEntries.forEach` body: grow both accumulators. -/
def addTsEntry (acc : List String × List String) (tsEntry : String) :
    List String × List String :=
  (pushUnique acc.1 tsEntry, pushUnique acc.2 tsEntry)

/-- The three `forEach` loops of `getAppDllWebpackConfigPartial` that
build `tsEntries` and `entries` from the parsed dll result.  Returns
(`tsEntries`, `entries`); `entries` is the array assigned to
`entryPoints[vendorChunkName]`. -/
def buildDllEntries (r : DllParsedResult) : List String × List String :=
  let p1 := r.tsEntries.foldl addTsEntry ([], [])
  let e2 := r.scriptEntries.foldl pushUnique p1.2
  let e3 := r.styleEntries.foldl pushUnique e2
  (p1.1, e3)

/-! ## Styles fragment (`src/webpack-configs/styles.ts`)

Only the claim-relevant outputs are modelled: the `entry` map and the
plugin list of the returned fragment (the returned `module.rules` are not
consulted by any claim).  Global style entries arrive already parsed, as
(entry name, resolved path) pairs. -/

structure StylesIn where
  projectType : String
  platformTarget : String
  envDll : Bool
  envTest : Bool
  extractCss : Bool
  appendOutputHash : Bool
  globalStyleEntries : List (String × String)
deriving DecidableEq, Repr

inductive StylePlugin where
  | extractText (filename : String)
  | suppressChunks (chunks : List String)
deriving DecidableEq, Repr

/-- `entryPoints[style.entry] ? push(path) : [path]`, preserving the
object's key insertion order. -/
def insertStyleEntry (m : List (String × List String)) (e p : String) :
    List (String × List String) :=
  if m.any (fun kv => kv.1 == e) then
    m.map (fun kv => if kv.1 == e then (kv.1, kv.2 ++ [p]) else kv)
  else m ++ [(e, [p])]

/-- The entry-point and plugin outputs of `getStylesConfigPartial`: the
app-only block runs only for `projectType === 'app'`,
`platformTarget === 'web'`, and neither `environment.dll` nor
`environment.test`; inside it, style entry points are added when there
are global styles, and the extract/suppress plugins when `extractCss`. -/
def getStylesConfigPartial (inp : StylesIn) :
    List (String × List String) × List StylePlugin :=
  let hashFormat := if inp.appendOutputHash then ".[contenthash:20]" else ""
  if inp.projectType == "app" && inp.platformTarget == "web" &&
      !inp.envDll && !inp.envTest then
    let entryPoints :=
      if inp.globalStyleEntries.length > 0 then
        inp.globalStyleEntries.foldl (fun m s => insertStyleEntry m s.1 s.2) []
      else []
    let stylePlugins :=
      if inp.extractCss then
        [StylePlugin.extractText ("[name]" ++ hashFormat ++ ".css"),
         StylePlugin.suppressChunks (entryPoints.map Prod.fst)]
      else []
    (entryPoints, stylePlugins)
  else ([], [])

/-! ## Helper lemmas (shared) -/

/-- `pushUnique` preserves duplicate-freedom. -/
theorem pushUnique_nodup {l : List String} {x : String} (h : l.Nodup) :
    (pushUnique l x).Nodup := by
  unfold pushUnique
  split
  · exact h
  · rename_i hc
    have hx : x ∉ l := by
      intro hm
      exact hc (by simpa [List.contains] using (List.elem_iff).mpr hm)
    simpa [List.concat_eq_append] using List.Nodup.concat hx h

/-- Folding `pushUnique` over any list preserves duplicate-freedom of the
accumulator. -/
theorem foldl_pushUnique_nodup (xs : List String) :
    ∀ acc : List String, acc.Nodup → (xs.foldl pushUnique acc).Nodup := by
  induction xs with
  | nil => intro acc h; simpa using h
  | cons a as ih => intro acc h; exact ih _ (pushUnique_nodup h)

/-- Folding `addTsEntry` preserves duplicate-freedom of both accumulators. -/
theorem foldl_addTsEntry_nodup (xs : List String) :
    ∀ acc : List String × List String, acc.1.Nodup → acc.2.Nodup →
      (xs.foldl addTsEntry acc).1.Nodup ∧ (xs.foldl addTsEntry acc).2.Nodup := by
  induction xs with
  | nil => intro acc h1 h2; exact ⟨h1, h2⟩
  | cons a as ih =>
    intro acc h1 h2
    exact ih _ (pushUnique_nodup h1) (pushUnique_nodup h2)

/-! ## Claim theorems -/

/-- C1: the spec says a missing manifest (or any stat failure) makes the
gatekeeper transition to Build, invoking the bundler with the vendor-only
configuration.  The code does the opposite: `checkManifestFile` rejects on
a stat error (a missing manifest stats with ENOENT), so `tryDll` forwards
the stat error to `next` and never invokes the bundler.  This theorem
evaluates the embedded `tryDll` at such a failing input: for every bundler
outcome, the hook completes with the stat error and `invokedBundler` is
false. -/
theorem tryDll_statError_aborts_without_build (run : RunOutcome) :
    tryDll { manifestStat := .statError "ENOENT", run := run } =
      { invokedBundler := false, nextErr := some "ENOENT" } := rfl

/-- C2: the spec says that when the bundler compilation reports structural
errors (`stats.hasErrors()`), the hook completion callback receives a
non-null error.  In the code the rejection on `hasErrors()` is `reject()`
with no reason, so the `.catch` forwards `undefined` to `next`: the hook
completes with **no** error.  This theorem evaluates the embedded `tryDll`
on the only path that runs the bundler (stat succeeded, not a regular
file) with `hasErrors = true`: the bundler is invoked but `nextErr` is
`none`. -/
theorem tryDll_hasErrors_next_gets_no_error :
    tryDll { manifestStat := .statOk false,
             run := { runErr := none, hasErrors := true } } =
      { invokedBundler := true, nextErr := none } := rfl

/-- C4: the spec says a relative directory entry is rewritten by stripping
a single *trailing* separator and appending the recursive all-files
suffix.  The code instead strips the final character whenever the entry
contains a separator *anywhere* (`p.lastIndexOf('/') > -1`).  This theorem
evaluates the embedded parser at the failing input `"foo/bar"` (an
existing directory relative to the base): the emitted glob is
`"foo/ba/**/*"` — the final `r` was stripped although there was no
trailing separator — where the claim requires `"foo/bar/**/*"`. -/
theorem parseAssetEntry_innerSlash_mangles_glob :
    parseAssetEntry (fun p => p == "foo/bar") "/base" [AssetIn.str "foo/bar"] =
      .ok [{ fromE := .glob "foo/ba/**/*" true,
             context := some "/base", toDest := none }] := rfl

/-- C9: `getWebpackStatsConfig(true)` merges the verbose options into the
shared module-level object in place, so a later call with `verbose =
false` still returns the verbose settings: the result depends on call
history, not only on the argument.  Starting from the initial module
state, one verbose call followed by a non-verbose call yields
children/assets/version/reasons all true, and differs from the value a
non-verbose call returns on the untouched initial state. -/
theorem getWebpackStatsConfig_history_dependent :
    (getWebpackStatsConfig false
        (getWebpackStatsConfig true webpackOutputOptions).1).2.children = true ∧
    (getWebpackStatsConfig false
        (getWebpackStatsConfig true webpackOutputOptions).1).2.assets = true ∧
    (getWebpackStatsConfig false
        (getWebpackStatsConfig true webpackOutputOptions).1).2.version = true ∧
    (getWebpackStatsConfig false
        (getWebpackStatsConfig true webpackOutputOptions).1).2.reasons = true ∧
    (getWebpackStatsConfig false
        (getWebpackStatsConfig true webpackOutputOptions).1).2 ≠
      (getWebpackStatsConfig false webpackOutputOptions).2 := by
  decide

/-- C10: the vendor-chunk entry array and the `tsEntries` array built by
`getAppDllWebpackConfigPartial` are duplicate-free, because membership is
checked before every push. -/
theorem buildDllEntries_nodup (r : DllParsedResult) :
    (buildDllEntries r).1.Nodup ∧ (buildDllEntries r).2.Nodup := by
  unfold buildDllEntries
  have h1 := foldl_addTsEntry_nodup r.tsEntries ([], [])
    (by simp) (by simp)
  exact ⟨h1.1,
    foldl_pushUnique_nodup r.styleEntries _
      (foldl_pushUnique_nodup r.scriptEntries _ h1.2)⟩

/-- C3 counterexample: the claim says an absolute no-wildcard entry that
resolves to an existing directory gets the directory rewrite and is
emitted as a glob descriptor.  At the concrete input `"/abs/dir"` (no
wildcard, absolute, reported as an existing directory by the filesystem
probe) the parser emits a **literal** path, because the rewrite in
`prepareGlobFn` requires `!path.isAbsolute(p)`. -/
theorem parseAssetEntry_absoluteDir_literal_cex :
    (lastIndexOf "/abs/dir" '*' == -1) = true ∧
    isAbsolute "/abs/dir" = true ∧
    (fun p => p == "/abs/dir") "/abs/dir" = true ∧
    parseAssetEntry (fun p => p == "/abs/dir") "/base" [AssetIn.str "/abs/dir"] =
      .ok [{ fromE := .lit "/abs/dir", context := some "/base", toDest := none }] :=
  ⟨rfl, rfl, rfl, rfl⟩

/-- C3 (amended): an absolute string entry is never rewritten by
`prepareGlobFn` (the rewrite requires a relative path), so every absolute
string entry — in particular one with no wildcard that resolves to an
existing directory — is emitted as a literal path with
`context = baseDir`, not as a glob descriptor. -/
theorem parseAssetEntry_absolute_emits_literal (fsIsDir : String → Bool)
    (baseDir p : String) (h : isAbsolute p = true) :
    parseAssetEntry fsIsDir baseDir [AssetIn.str p] =
      .ok [{ fromE := .lit p, context := some baseDir, toDest := none }] := by
  have hp : ¬(p = "") := by
    intro e
    subst e
    exact absurd h (by decide)
  have hglob : prepareGlob fsIsDir p = p := by
    unfold prepareGlob
    rw [if_neg hp]
    simp [h]
  simp [parseAssetEntry, parseAssetList, parseOneAsset, hglob, h]

/-- C3 witness: the amended theorem applied at the concrete absolute
entry `"/abs/dir"` over a filesystem where it is an existing directory. -/
theorem parseAssetEntry_absolute_emits_literal_wit :
    parseAssetEntry (fun p => p == "/abs/dir") "/b" [AssetIn.str "/abs/dir"] =
      .ok [{ fromE := .lit "/abs/dir", context := some "/b", toDest := none }] :=
  parseAssetEntry_absolute_emits_literal (fun p => p == "/abs/dir") "/b"
    "/abs/dir" (by decide)

/-- C5 counterexample: the claim says requesting `'libs'` empties the
app-kind result even when specific app names are also present in the
filter.  With one app named `"myapp"` and filter names
`["libs", "myapp"]`, the exclusivity check fails (not every name is
`'libs'`) and the app survives: the app-kind result is not empty. -/
theorem filterAppConfigs_libs_with_name_cex :
    filterAppConfigs [{ name := "myapp", skip := false }] ["libs", "myapp"] =
      [{ name := "myapp", skip := false }] := rfl

/-- C5 (amended): requesting the reserved group name `'libs'` empties the
app-kind result only when the requested names consist exclusively of
`'libs'`; symmetrically, names consisting exclusively of `'apps'` empty
the lib-kind result.  When specific app names accompany `'libs'`, the
matching apps survive the filter. -/
theorem filter_exclusive_group_shortcut (apps libs : List ProjCfg)
    (names : List String) :
    (names ≠ [] → (∀ n ∈ names, n = "libs") →
      filterAppConfigs apps names = []) ∧
    (names ≠ [] → (∀ n ∈ names, n = "apps") →
      filterLibConfigs libs names = []) ∧
    (∀ pc ∈ apps, pc.name ≠ "" → pc.name ∈ names →
      ¬(∀ n ∈ names, n = "libs") →
      pc ∈ filterAppConfigs apps names) := by
  refine ⟨?_, ?_, ?_⟩
  · intro hne hall
    have hfeq : names.filter (fun configName => configName == "libs") = names :=
      List.filter_eq_self.mpr (fun a ha => by simp [hall a ha])
    have hlen : names.length ≠ 0 := by
      simpa [List.length_eq_zero] using hne
    have hc : (names.length != 0 &&
        ((names.filter (fun configName => configName == "libs")).length ==
          names.length)) = true := by
      simp [hfeq, hlen]
    simp [filterAppConfigs, hc]
  · intro hne hall
    have hfeq : names.filter (fun configName => configName == "apps") = names :=
      List.filter_eq_self.mpr (fun a ha => by simp [hall a ha])
    have hlen : names.length ≠ 0 := by
      simpa [List.length_eq_zero] using hne
    have hc : (names.length != 0 &&
        ((names.filter (fun configName => configName == "apps")).length ==
          names.length)) = true := by
      simp [hfeq, hlen]
    simp [filterLibConfigs, hc]
  · intro pc hpc hname hmem hnall
    have hne : names ≠ [] := by
      intro e
      subst e
      exact absurd hmem (by simp)
    have hflt : names.filter (fun configName => configName == "libs") ≠ names := by
      intro he
      exact hnall (fun n hn => by
        have := List.filter_eq_self.mp he n hn
        simpa using this)
    have hlenne :
        (names.filter (fun configName => configName == "libs")).length ≠
          names.length := by
      intro he
      exact hflt ((List.filter_sublist _).eq_of_length he)
    have hc : (names.length != 0 &&
        ((names.filter (fun configName => configName == "libs")).length ==
          names.length)) = false := by
      simp [hlenne]
    have hlen : 0 < names.length := List.length_pos.mpr hne
    have hcont : names.contains pc.name = true := by
      simpa [List.contains] using (List.elem_iff).mpr hmem
    simp only [filterAppConfigs, hc, Bool.false_eq_true, if_false]
    refine List.mem_filter.mpr ⟨hpc, ?_⟩
    simp only [hlen, hcont, hname, Nat.pos_iff_ne_zero.mp hlen]
    simp [hname]

/-- C5 witness: the amended theorem applied at concrete inputs — filter
names consisting exclusively of the opposite reserved group name empty
the app-kind (resp. lib-kind) result. -/
theorem filter_exclusive_group_shortcut_wit :
    filterAppConfigs [{ name := "myapp", skip := false }] ["libs"] = [] ∧
    filterLibConfigs [{ name := "mylib", skip := false }] ["apps", "apps"] = [] := by
  refine ⟨?_, ?_⟩
  · exact (filter_exclusive_group_shortcut
      [{ name := "myapp", skip := false }]
      [{ name := "mylib", skip := false }] ["libs"]).1
      (by decide) (by decide)
  · exact (filter_exclusive_group_shortcut
      [{ name := "myapp", skip := false }]
      [{ name := "mylib", skip := false }] ["apps", "apps"]).2.1
      (by decide) (by decide)

/-- C6: whenever the project-assembly portion of `getWebpackConfig`
returns successfully, the returned configuration list is non-empty — a
run in which zero projects survive filtering, skip flags and the
per-project builders ends in the `InvalidConfigError` throw, never in an
empty success. -/
theorem getWebpackConfigModel_ok_nonempty {α : Type}
    (validate : ProjCfg → Option String)
    (buildLib buildApp buildAppDll : ProjCfg → Option α)
    (libConfigs appConfigs : List ProjCfg) (filterNames : List String)
    (envDll : Bool) (l : List α)
    (h : getWebpackConfigModel validate buildLib buildApp buildAppDll
      libConfigs appConfigs filterNames envDll = .ok l) :
    l ≠ [] := by
  unfold getWebpackConfigModel at h
  split at h
  · exact absurd h (by simp)
  · split at h
    · exact absurd h (by simp)
    · split at h
      · exact absurd h (by simp)
      · split at h
        · exact absurd h (by simp)
        · rename_i hlen
          simp only [Except.ok.injEq] at h
          subst h
          intro hnil
          exact hlen (by simp [hnil])

/-- C6 witness: a concrete run with one surviving lib project returns
`ok [1]`, and the theorem yields that this list is non-empty. -/
theorem getWebpackConfigModel_ok_nonempty_wit :
    getWebpackConfigModel (fun _ => none) (fun _ => some 1) (fun _ => some 2)
      (fun _ => some 3) [{ name := "mylib", skip := false }] [] [] false =
      .ok [1] ∧ ([1] : List Nat) ≠ [] :=
  ⟨rfl, getWebpackConfigModel_ok_nonempty (fun _ => none) (fun _ => some 1)
    (fun _ => some 2) (fun _ => some 3) [{ name := "mylib", skip := false }]
    [] [] false [1] rfl⟩

/-- C7: when `getAppDllWebpackConfig` reaches the merge step (the project
is the dll variant of an app) and the merged result has no entry points
at all — `entry` absent, or an object with zero keys — the merger
substitutes the no-op entry function instead of leaving the empty map. -/
theorem getAppDllWebpackConfig_empty_entry_fn (isDll : Bool)
    (projectType : String) (merged : WebpackConfigM)
    (hdll : isDll = true) (hty : projectType = "app")
    (hempty : merged.entry = .absent ∨ merged.entry = .obj []) :
    (getAppDllWebpackConfig isDll projectType merged).entry = .fn := by
  subst hdll
  subst hty
  rcases hempty with h | h <;>
    simp [getAppDllWebpackConfig, entryIsEmptyJs, h]

/-- C7 witness: the theorem applied to a merged config with an absent
entry slot. -/
theorem getAppDllWebpackConfig_empty_entry_fn_wit :
    (getAppDllWebpackConfig true "app" { entry := .absent }).entry = .fn :=
  getAppDllWebpackConfig_empty_entry_fn true "app" { entry := .absent }
    rfl rfl (Or.inl rfl)

/-- C8: the styles fragment adds style entry points and the
suppress-empty-script plugins only for the main web build — project type
`'app'`, platform target `'web'`, and neither the dll flag nor the test
flag set — and in a dll or test pass it contributes no entry points and
no plugins. -/
theorem getStylesConfigPartial_main_web_only (inp : StylesIn) :
    ((inp.envDll = true ∨ inp.envTest = true) →
      getStylesConfigPartial inp = ([], [])) ∧
    (((getStylesConfigPartial inp).1 ≠ [] ∨ (getStylesConfigPartial inp).2 ≠ []) →
      inp.projectType = "app" ∧ inp.platformTarget = "web" ∧
        inp.envDll = false ∧ inp.envTest = false) := by
  by_cases hc : (inp.projectType == "app" && inp.platformTarget == "web" &&
      !inp.envDll && !inp.envTest) = true
  case pos =>
    have hparts := hc
    simp only [Bool.and_eq_true, beq_iff_eq, Bool.not_eq_true'] at hparts
    obtain ⟨⟨⟨h1, h2⟩, h3⟩, h4⟩ := hparts
    constructor
    · intro hor
      rcases hor with h | h
      · simp [h] at h3
      · simp [h] at h4
    · intro _
      exact ⟨h1, h2, h3, h4⟩
  case neg =>
    have hres : getStylesConfigPartial inp = ([], []) := by
      simp only [getStylesConfigPartial]
      rw [if_neg hc]
    refine ⟨fun _ => hres, fun hne => ?_⟩
    rcases hne with h | h <;> simp [hres] at h

/-- C8 witness: the theorem applied to a dll-pass input — a web app with
global styles and css extraction, but `environment.dll` set — yields an
empty entry map and an empty plugin list. -/
theorem getStylesConfigPartial_main_web_only_wit :
    getStylesConfigPartial { projectType := "app", platformTarget := "web",
                             envDll := true, envTest := false,
                             extractCss := true, appendOutputHash := false,
                             globalStyleEntries :=
                               [("styles", "/src/styles.css")] } = ([], []) :=
  (getStylesConfigPartial_main_web_only _).1 (Or.inl rfl)

end AngularBuild
